import Mathlib

/-
Verification development for the mus-uc-devtools repository (Rust).

The definitions below are a shallow embedding of the core of the code:

  * `splitAtFirst` / `parse_response_line` model the response-frame parsing
    in `MarionetteClient::send_command` (src/marionette_client.rs lines 96-98):
    the code finds the first colon in the line it read and takes everything
    after it as the JSON payload.
  * `MarionetteClient` / `send_command_id` model the u32 message-id counter
    (`self.message_id += 1`; u32 arithmetic wraps modulo 2^32 under release
    semantics, modelled with `% u32size`).
  * `MarionetteClient.connect` models the handshake validation in
    `MarionetteClient::connect` (lines 53-68); JSON parsing of the handshake
    line is outside the embedding, so the function takes the parsed record.
  * `JValue` is a minimal JSON value type with the two accessors the CSS
    manager uses (`as_str`, `as_bool`).
  * `Registry` with `lookupSheet` / `removeSheet` / `insertSheet` models the
    `HashMap<String, String>` field `loaded_sheets` (insert replaces an
    existing binding; remove deletes the binding of a key).
  * `load_css`, `unload_css`, `clear_all` model the corresponding methods of
    `ChromeCSSManager` (src/chrome_css_manager.rs).  The network is external,
    so each operation takes the result of `execute_script` as an input of
    type `Except String JValue`; a `?` early return in the Rust source is the
    `.error` branch, which returns the registry unchanged.
  * `escapeBackticks` models `css_content.replace('\x60', "\\\x60")` in
    `load_css`; `escapeBackslashes`/`escapeDquotes`/`escapeSelector` model
    `selector.replace('\\', "\\\\").replace('"', "\\\"")` in
    `ScreenshotManager::capture_element` (src/screenshot.rs lines 75-76).
    `tmplBreak` and `dquoteBreak` are scanners for the two JavaScript string
    literal forms the escaped text is interpolated into: they report whether
    the text escapes the literal (an unescaped backtick, resp. double quote)
    or introduces execution (an unescaped template interpolation opener).
  * `splitOnComma`, `b64Val`, `b64DecodeGroups`, `save_data_url_to_file`
    model `ScreenshotManager::save_data_url_to_file`: `split(',')` collecting
    all parts, requiring exactly two, and strict standard base64 decoding
    with required canonical padding (the `general_purpose::STANDARD` engine).
    `save_data_url_spec` is a second definition written from the spec's words
    (split at the FIRST comma, decode the tail) for the refinement claim.
  * `MarionetteSettings` with `new` and `derivedDefault`: the source derives
    `Default`, and Rust's derived `Default` is field-wise, giving the empty
    string for `String` and 0 for `u16`.
-/

namespace MusUc

/-- Backtick character (U+0060), kept as a named constant. -/
def backtickChar : Char := Char.ofNat 96

/-- Left brace character (U+007B), kept as a named constant. -/
def lbraceChar : Char := Char.ofNat 123

/-! ## Response frame parsing (marionette_client.rs, send_command) -/

/-- Split a character list at the first occurrence of `sep`: returns the part
before the separator and the part after it, or `none` when `sep` does not
occur.  This models `line.find(sep)` followed by slicing. -/
def splitAtFirst (sep : Char) : List Char → Option (List Char × List Char)
  | [] => none
  | c :: cs =>
    if c = sep then some ([], cs)
    else
      match splitAtFirst sep cs with
      | none => none
      | some (p, r) => some (c :: p, r)

/-- Model of the response parsing in `send_command` (lines 96-98): find the
first colon, error with "Invalid response format" if there is none, and
otherwise take everything after the colon as the payload. -/
def parse_response_line (line : List Char) : Except String (List Char) :=
  match splitAtFirst ':' line with
  | none => Except.error "Invalid response format"
  | some (_, rest) => Except.ok rest

/-! ## Session state and handshake (marionette_client.rs) -/

/-- Number of values of a `u32`. -/
def u32size : Nat := 4294967296

/-- Model of the `MarionetteClient` struct: only the message-id counter is
relevant to the embedded operations (the TCP stream is external). -/
structure MarionetteClient where
  message_id : Nat
deriving DecidableEq

/-- Model of the parsed handshake record `MarionetteHandshake`. -/
structure MarionetteHandshake where
  protocol : Nat
  application_type : String
deriving DecidableEq

/-- Model of the validation part of `MarionetteClient::connect` (lines 53-68):
reject an application type other than "gecko", then a protocol other than 3,
and otherwise construct the client with `message_id = 0`. -/
def MarionetteClient.connect (h : MarionetteHandshake) :
    Except String MarionetteClient :=
  if h.application_type ≠ "gecko" then
    Except.error ("Unexpected application type: " ++ h.application_type)
  else if h.protocol ≠ 3 then
    Except.error "Unsupported protocol version"
  else
    Except.ok { message_id := 0 }

/-- Model of the id allocation in `send_command` (lines 76-77):
`self.message_id += 1` on a `u32` (wrapping modulo 2^32), then the new value
is used as the message id.  Returns the id together with the updated client. -/
def send_command_id (c : MarionetteClient) : Nat × MarionetteClient :=
  let id := (c.message_id + 1) % u32size
  (id, { message_id := id })

/-- The client state after `n` calls to `send_command` on a fresh session. -/
def clientAfter : Nat → MarionetteClient
  | 0 => { message_id := 0 }
  | n + 1 => (send_command_id (clientAfter n)).2

/-- The message id attached to the k-th (1-based) call of `send_command`
within one session. -/
def idOfCall (k : Nat) : Nat := (send_command_id (clientAfter (k - 1))).1

/-! ## JSON values (the two accessors the CSS manager uses) -/

/-- Minimal JSON value type for remote results. -/
inductive JValue where
  | null : JValue
  | bool : Bool → JValue
  | str : String → JValue
  | num : Int → JValue
deriving DecidableEq

/-- Model of `serde_json::Value::as_str`. -/
def JValue.as_str : JValue → Option String
  | JValue.str s => some s
  | _ => none

/-- Model of `serde_json::Value::as_bool`. -/
def JValue.as_bool : JValue → Option Bool
  | JValue.bool b => some b
  | _ => none

/-! ## The client registry (chrome_css_manager.rs, loaded_sheets) -/

/-- The client registry `loaded_sheets : HashMap<String, String>`, modelled as
an association list with unique keys. -/
abbrev Registry := List (String × String)

/-- Lookup of a key in the registry (HashMap::get). -/
def lookupSheet : Registry → String → Option String
  | [], _ => none
  | (k, v) :: rest, key => if k = key then some v else lookupSheet rest key

/-- Removal of a key from the registry (HashMap::remove). -/
def removeSheet : Registry → String → Registry
  | [], _ => []
  | (k, v) :: rest, key =>
    if k = key then removeSheet rest key else (k, v) :: removeSheet rest key

/-- Insertion into the registry (HashMap::insert): replaces any existing
binding of the key. -/
def insertSheet (r : Registry) (key v : String) : Registry :=
  (key, v) :: removeSheet r key

/-! ## CSS manager operations (chrome_css_manager.rs)

Each operation takes the remote result of `execute_script` as an explicit
input and returns the operation's result together with the registry after the
call. -/

/-- Model of `ChromeCSSManager::load_css` (lines 81-111).  The `id` argument
only influences the script text (modelled separately by the escaping
functions), not the registry logic.  On remote failure the `?` operator
returns early, leaving the registry unchanged.  On success the sheet id is
`result.as_str().unwrap_or("unknown")` and `(sheet_id, css_content)` is
inserted. -/
def load_css (reg : Registry) (css_content : String) (_id : Option String)
    (remote : Except String JValue) : Except String String × Registry :=
  match remote with
  | Except.error e => (Except.error e, reg)
  | Except.ok v =>
    let sheet_id := (JValue.as_str v).getD "unknown"
    (Except.ok sheet_id, insertSheet reg sheet_id css_content)

/-- Model of `ChromeCSSManager::unload_css` (lines 113-130): on remote failure
the registry is unchanged; otherwise `success = result.as_bool().unwrap_or(false)`,
and the entry is removed exactly when `success` is true. -/
def unload_css (reg : Registry) (id : String)
    (remote : Except String JValue) : Except String Bool × Registry :=
  match remote with
  | Except.error e => (Except.error e, reg)
  | Except.ok v =>
    let success := (JValue.as_bool v).getD false
    if success then (Except.ok true, removeSheet reg id)
    else (Except.ok false, reg)

/-- Model of `ChromeCSSManager::clear_all` (lines 132-142): on remote failure
the registry is unchanged; on success the registry is cleared. -/
def clear_all (reg : Registry) (remote : Except String JValue) :
    Except String Unit × Registry :=
  match remote with
  | Except.error e => (Except.error e, reg)
  | Except.ok _ => (Except.ok (), [])

/-! ## Escaping of interpolated user data -/

/-- Model of `css_content.replace('\x60', "\\\x60")` in `load_css`: each
backtick is replaced by backslash-backtick, every other character is kept. -/
def escapeBackticks : List Char → List Char
  | [] => []
  | c :: cs =>
    if c = backtickChar then '\\' :: backtickChar :: escapeBackticks cs
    else c :: escapeBackticks cs

/-- Model of `selector.replace('\\', "\\\\")` in `capture_element`. -/
def escapeBackslashes : List Char → List Char
  | [] => []
  | c :: cs =>
    if c = '\\' then '\\' :: '\\' :: escapeBackslashes cs
    else c :: escapeBackslashes cs

/-- Model of `.replace('"', "\\\"")` in `capture_element`. -/
def escapeDquotes : List Char → List Char
  | [] => []
  | c :: cs =>
    if c = '"' then '\\' :: '"' :: escapeDquotes cs
    else c :: escapeDquotes cs

/-- Model of the selector escaping in `capture_element` (lines 75-76): first
double the backslashes, then escape the double quotes. -/
def escapeSelector (l : List Char) : List Char :=
  escapeDquotes (escapeBackslashes l)

/-- Whether the head of the list is a left brace. -/
def headIsLbrace : List Char → Bool
  | [] => false
  | c :: _ => c = lbraceChar

/-- Scanner for a JavaScript template literal body: processing the characters
left to right (the flag records that the previous character was an unconsumed
escaping backslash), report `true` iff the text terminates the literal (an
unescaped backtick) or introduces execution (an unescaped dollar followed by
a left brace). -/
def tmplBreak : Bool → List Char → Bool
  | _, [] => false
  | true, _ :: cs => tmplBreak false cs
  | false, c :: cs =>
    if c = '\\' then tmplBreak true cs
    else if c = backtickChar then true
    else if c = '$' then
      if headIsLbrace cs then true else tmplBreak false cs
    else tmplBreak false cs

/-- Scanner for a JavaScript double-quoted string literal body: report `true`
iff the text terminates the literal (an unescaped double quote). -/
def dquoteBreak : Bool → List Char → Bool
  | _, [] => false
  | true, _ :: cs => dquoteBreak false cs
  | false, c :: cs =>
    if c = '\\' then dquoteBreak true cs
    else if c = '"' then true
    else dquoteBreak false cs

/-! ## Screenshot data-URL saving (screenshot.rs) -/

/-- Model of Rust's `str::split(',')`: the list of parts between commas
(an input without commas gives one part; a trailing comma gives a trailing
empty part). -/
def splitOnComma : List Char → List (List Char)
  | [] => [[]]
  | c :: cs =>
    if c = ',' then [] :: splitOnComma cs
    else
      match splitOnComma cs with
      | [] => [[c]]
      | p :: ps => (c :: p) :: ps

/-- The value of a standard-alphabet base64 digit. -/
def b64Val (c : Char) : Option Nat :=
  if 'A' ≤ c ∧ c ≤ 'Z' then some (c.toNat - 65)
  else if 'a' ≤ c ∧ c ≤ 'z' then some (c.toNat - 97 + 26)
  else if '0' ≤ c ∧ c ≤ '9' then some (c.toNat - 48 + 52)
  else if c = '+' then some 62
  else if c = '/' then some 63
  else none

/-- Strict standard base64 decoding with required canonical padding, as the
`general_purpose::STANDARD` engine of the base64 crate performs it: the input
is consumed in groups of four characters; `=` padding may only occur at the
two final positions of the last group, and the unused low bits of the last
digit must be zero.  Returns the decoded bytes (as `Nat`s below 256). -/
def b64DecodeGroups : List Char → Option (List Nat)
  | [] => some []
  | a :: b :: c :: d :: rest =>
    match b64Val a, b64Val b with
    | some va, some vb =>
      if c = '=' then
        if d = '=' then
          if rest = [] then
            if vb % 16 = 0 then some [va * 4 + vb / 16] else none
          else none
        else none
      else
        match b64Val c with
        | some vc =>
          if d = '=' then
            if rest = [] then
              if vc % 4 = 0 then some [va * 4 + vb / 16, vb % 16 * 16 + vc / 4]
              else none
            else none
          else
            match b64Val d, b64DecodeGroups rest with
            | some vd, some bs =>
              some ([va * 4 + vb / 16, vb % 16 * 16 + vc / 4,
                     vc % 4 * 64 + vd] ++ bs)
            | _, _ => none
        | none => none
    | _, _ => none
  | _ => none

/-- Model of `ScreenshotManager::save_data_url_to_file` (lines 89-111): split
the data URL on commas, require exactly two parts, base64-decode the second
part, and write the decoded bytes (the write is modelled by returning the
bytes). -/
def save_data_url_to_file (data_url : List Char) : Except String (List Nat) :=
  if (splitOnComma data_url).length = 2 then
    match b64DecodeGroups ((splitOnComma data_url).getD 1 []) with
    | some bytes => Except.ok bytes
    | none => Except.error "Failed to decode base64 data"
  else Except.error "Invalid data URL format"

/-- Modelled from the spec: "splits on the first comma, base64-decodes the
tail, and writes raw bytes to the path.  Rejects data URLs lacking a comma."
This second definition follows the spec's words and is compared with
`save_data_url_to_file` in the refinement claim. -/
def save_data_url_spec (data_url : List Char) : Except String (List Nat) :=
  match splitAtFirst ',' data_url with
  | none => Except.error "Invalid data URL format"
  | some (_, tail) =>
    match b64DecodeGroups tail with
    | some bytes => Except.ok bytes
    | none => Except.error "Failed to decode base64 data"

/-! ## Transport settings (marionette_client.rs, lines 137-150) -/

/-- Model of the `MarionetteSettings` struct. -/
structure MarionetteSettings where
  host : String
  port : Nat
deriving DecidableEq

/-- Model of `MarionetteSettings::new`. -/
def MarionetteSettings.new : MarionetteSettings :=
  { host := "localhost", port := 2828 }

/-- Model of the derived `Default` implementation (`#[derive(Default)]` on
line 137): Rust's derived `Default` is field-wise, and `String::default()` is
the empty string while `u16::default()` is 0.  This is the value
`MarionetteSettings::default()` used by `ChromeCSSManager::new` in the
chrome-css-manager.rs variant (line 16). -/
def MarionetteSettings.derivedDefault : MarionetteSettings :=
  { host := "", port := 0 }

/-! ## Helper lemmas -/

/-- Splitting at the first separator errs exactly on separator-free input. -/
lemma splitAtFirst_eq_none (sep : Char) :
    ∀ l : List Char, sep ∉ l → splitAtFirst sep l = none := by
  intro l
  induction l with
  | nil => intro _; rfl
  | cons c cs ih =>
    intro h
    rw [List.mem_cons, not_or] at h
    have hc : ¬ c = sep := fun hh => h.1 hh.symm
    simp [splitAtFirst, hc, ih h.2]

/-- Splitting recovers the decomposition at the first separator. -/
lemma splitAtFirst_append (sep : Char) :
    ∀ pre rest : List Char, sep ∉ pre →
      splitAtFirst sep (pre ++ sep :: rest) = some (pre, rest) := by
  intro pre rest
  induction pre with
  | nil => intro _; simp [splitAtFirst]
  | cons c cs ih =>
    intro h
    rw [List.mem_cons, not_or] at h
    have hc : ¬ c = sep := fun hh => h.1 hh.symm
    simp [splitAtFirst, hc, ih h.2]

/-- A successful split decomposes the input at its first separator. -/
lemma splitAtFirst_some (sep : Char) :
    ∀ l p r : List Char, splitAtFirst sep l = some (p, r) →
      l = p ++ sep :: r ∧ sep ∉ p := by
  intro l
  induction l with
  | nil => intro p r h; cases h
  | cons c cs ih =>
    intro p r h
    by_cases hc : c = sep
    · rw [show splitAtFirst sep (c :: cs) = some ([], cs) from by
        simp [splitAtFirst, hc]] at h
      obtain ⟨hp, hr⟩ := Prod.mk.injEq .. ▸ Option.some.injEq .. ▸ h
      subst hc
      constructor
      · rw [← hp, ← hr]; rfl
      · rw [← hp]; simp
    · cases hsp : splitAtFirst sep cs with
      | none => simp [splitAtFirst, hc, hsp] at h
      | some pr =>
        obtain ⟨p1, r1⟩ := pr
        have h2 : c :: p1 = p ∧ r1 = r := by
          simpa [splitAtFirst, hc, hsp] using h
        obtain ⟨hcs, hns⟩ := ih p1 r1 hsp
        constructor
        · rw [← h2.1, ← h2.2, hcs]; rfl
        · rw [← h2.1, List.mem_cons, not_or]
          exact ⟨fun hh => hc hh.symm, hns⟩

/-- Lookup of the removed key yields nothing. -/
lemma lookup_remove_self (key : String) :
    ∀ r : Registry, lookupSheet (removeSheet r key) key = none := by
  intro r
  induction r with
  | nil => rfl
  | cons p rest ih =>
    obtain ⟨k, v⟩ := p
    by_cases hk : k = key
    · simp [removeSheet, hk, ih]
    · simp [removeSheet, hk, lookupSheet, ih]

/-- Removal does not touch the bindings of other keys. -/
lemma lookup_remove_ne (key k : String) (hne : k ≠ key) :
    ∀ r : Registry, lookupSheet (removeSheet r key) k = lookupSheet r k := by
  intro r
  induction r with
  | nil => rfl
  | cons p rest ih =>
    obtain ⟨k1, v1⟩ := p
    have hkk : ¬ key = k := fun hh => hne hh.symm
    by_cases hk : k1 = key
    · have : ¬ k1 = k := fun hh => hne (hh ▸ hk)
      simp [removeSheet, hk, lookupSheet, this, hkk, ih]
    · by_cases hk2 : k1 = k
      · simp [removeSheet, hk, lookupSheet, hk2, hne]
      · simp [removeSheet, hk, lookupSheet, hk2, ih]

/-- The session counter after `n` calls holds `n` modulo 2^32. -/
lemma clientAfter_message_id : ∀ n : Nat,
    (clientAfter n).message_id = n % u32size := by
  intro n
  induction n with
  | zero => rfl
  | succ n ih =>
    have h1 : 1 % u32size = 1 := Nat.mod_eq_of_lt (by norm_num [u32size])
    calc (clientAfter (n + 1)).message_id
        = ((clientAfter n).message_id + 1) % u32size := rfl
      _ = (n % u32size + 1 % u32size) % u32size := by rw [ih, h1]
      _ = (n + 1) % u32size := (Nat.add_mod n 1 u32size).symm

/-- The id of the k-th call is k modulo 2^32. -/
lemma idOfCall_eq_mod (k : Nat) (hk : 1 ≤ k) : idOfCall k = k % u32size := by
  have h1 : 1 % u32size = 1 := Nat.mod_eq_of_lt (by norm_num [u32size])
  calc idOfCall k = ((clientAfter (k - 1)).message_id + 1) % u32size := rfl
    _ = ((k - 1) % u32size + 1 % u32size) % u32size := by
        rw [clientAfter_message_id, h1]
    _ = ((k - 1) + 1) % u32size := (Nat.add_mod (k - 1) 1 u32size).symm
    _ = k % u32size := by rw [Nat.sub_add_cancel hk]

/-- A comma-free input splits into a single part, itself. -/
lemma splitOnComma_no_comma : ∀ l : List Char, ',' ∉ l →
    splitOnComma l = [l] := by
  intro l
  induction l with
  | nil => intro _; rfl
  | cons c cs ih =>
    intro h
    rw [List.mem_cons, not_or] at h
    have hc : ¬ c = ',' := fun hh => h.1 hh.symm
    simp [splitOnComma, hc, ih h.2]

/-- Splitting peels off the part before the first comma. -/
lemma splitOnComma_append : ∀ pre rest : List Char, ',' ∉ pre →
    splitOnComma (pre ++ ',' :: rest) = pre :: splitOnComma rest := by
  intro pre rest
  induction pre with
  | nil => intro _; simp [splitOnComma]
  | cons c cs ih =>
    intro h
    rw [List.mem_cons, not_or] at h
    have hc : ¬ c = ',' := fun hh => h.1 hh.symm
    simp [splitOnComma, hc, ih h.2]

/-- The split of any input is non-empty. -/
lemma splitOnComma_ne_nil : ∀ l : List Char, splitOnComma l ≠ [] := by
  intro l
  match l with
  | [] => simp [splitOnComma]
  | c :: cs =>
    by_cases hc : c = ','
    · simp [splitOnComma, hc]
    · cases hsp : splitOnComma cs with
      | nil => simp [splitOnComma, hc, hsp]
      | cons p ps => simp [splitOnComma, hc, hsp]

/-- A split with a single part means the input had no comma. -/
lemma splitOnComma_singleton : ∀ l x : List Char, splitOnComma l = [x] →
    ',' ∉ l ∧ x = l := by
  intro l
  induction l with
  | nil =>
    intro x h
    have hx : x = [] := by simpa [splitOnComma] using h.symm
    exact ⟨by simp, hx⟩
  | cons c cs ih =>
    intro x h
    by_cases hc : c = ','
    · exfalso
      have : splitOnComma cs = [] := by
        have h2 : ([] : List Char) :: splitOnComma cs = [x] := by
          simpa [splitOnComma, hc] using h
        have := congrArg List.tail h2
        simpa using this
      exact splitOnComma_ne_nil cs this
    · cases hsp : splitOnComma cs with
      | nil => exact absurd hsp (splitOnComma_ne_nil cs)
      | cons p ps =>
        have h2 : (c :: p) :: ps = [x] := by
          simpa [splitOnComma, hc, hsp] using h
        have hps : ps = [] := by
          have := congrArg List.tail h2
          simpa using this
        have hx : c :: p = x := by
          have := congrArg (fun t => List.headD t ([] : List Char)) h2
          simpa using this
        obtain ⟨hcs, hp⟩ := ih p (by rw [hsp, hps])
        subst hp
        refine ⟨?_, hx.symm⟩
        rw [List.mem_cons, not_or]
        exact ⟨fun hh => hc hh.symm, hcs⟩

/-- A split with exactly two parts decomposes the input at its only comma. -/
lemma splitOnComma_pair : ∀ l p q : List Char, splitOnComma l = [p, q] →
    l = p ++ ',' :: q ∧ ',' ∉ p ∧ ',' ∉ q := by
  intro l
  induction l with
  | nil => intro p q h; simp [splitOnComma] at h
  | cons c cs ih =>
    intro p q h
    by_cases hc : c = ','
    · have h2 : ([] : List Char) :: splitOnComma cs = [p, q] := by
        simpa [splitOnComma, hc] using h
      have hp : ([] : List Char) = p := by
        have := congrArg (fun t => List.headD t ([' '] : List Char)) h2
        simpa using this
      have hq : splitOnComma cs = [q] := by
        have := congrArg List.tail h2
        simpa using this
      obtain ⟨hcs, hqq⟩ := splitOnComma_singleton cs q hq
      subst hqq
      refine ⟨?_, ?_, hcs⟩
      · rw [← hp, hc]; rfl
      · rw [← hp]; simp
    · cases hsp : splitOnComma cs with
      | nil => exact absurd hsp (splitOnComma_ne_nil cs)
      | cons p1 ps =>
        have h2 : (c :: p1) :: ps = [p, q] := by
          simpa [splitOnComma, hc, hsp] using h
        have hp : c :: p1 = p := by
          have := congrArg (fun t => List.headD t ([] : List Char)) h2
          simpa using this
        have hps : ps = [q] := by
          have := congrArg List.tail h2
          simpa using this
        obtain ⟨hcs, hnp1, hnq⟩ := ih p1 q (by rw [hsp, hps])
        refine ⟨?_, ?_, hnq⟩
        · rw [← hp, hcs]; rfl
        · rw [← hp, List.mem_cons, not_or]
          exact ⟨fun hh => hc hh.symm, hnp1⟩

/-- Double-quote escaping distributes over concatenation. -/
lemma escapeDquotes_append : ∀ a b : List Char,
    escapeDquotes (a ++ b) = escapeDquotes a ++ escapeDquotes b := by
  intro a b
  induction a with
  | nil => rfl
  | cons c cs ih =>
    by_cases hc : c = '"'
    · simp [escapeDquotes, hc, ih]
    · simp [escapeDquotes, hc, ih]

/-- The backtick-only escape is safe for sources that contain neither a
backslash nor a dollar sign: the escaped text never leaves the template
literal. -/
lemma tmpl_safe : ∀ l : List Char, '\\' ∉ l → '$' ∉ l →
    tmplBreak false (escapeBackticks l) = false := by
  intro l
  induction l with
  | nil => intro _ _; rfl
  | cons c cs ih =>
    intro hbs hd
    rw [List.mem_cons, not_or] at hbs hd
    by_cases hbt : c = backtickChar
    · have htail := ih hbs.2 hd.2
      simp [escapeBackticks, hbt, tmplBreak, htail]
    · have h1 : ¬ c = '\\' := fun hh => hbs.1 hh.symm
      have h2 : ¬ c = '$' := fun hh => hd.1 hh.symm
      have htail := ih hbs.2 hd.2
      simp [escapeBackticks, hbt, tmplBreak, h1, h2, htail]

/-- The selector escaping of `capture_element` is safe for every selector:
the escaped text never leaves the double-quoted literal. -/
lemma dquote_safe : ∀ l : List Char,
    dquoteBreak false (escapeSelector l) = false := by
  intro l
  unfold escapeSelector
  induction l with
  | nil => rfl
  | cons c cs ih =>
    by_cases hb : c = '\\'
    · simp only [escapeBackslashes, hb, if_pos]
      simp [escapeDquotes, dquoteBreak, ih]
    · by_cases hq : c = '"'
      · simp only [escapeBackslashes, hb, if_neg, hq]
        simp [escapeDquotes, dquoteBreak, ih]
      · simp only [escapeBackslashes, hb, if_neg]
        simp [escapeDquotes, hq, dquoteBreak, hb, ih]

lemma comma_b64Val : b64Val ',' = none := by decide

lemma b64_no_comma_aux : ∀ n : Nat, ∀ l : List Char, l.length ≤ n →
    ∀ bs : List Nat, b64DecodeGroups l = some bs → ',' ∉ l := by
  intro n
  induction n with
  | zero =>
    intro l hl bs h
    have hnil : l = [] := List.eq_nil_of_length_eq_zero (Nat.le_zero.mp hl)
    subst hnil; simp
  | succ n ih =>
    intro l hl bs h
    match l with
    | [] => simp
    | [a] => rw [show b64DecodeGroups [a] = none from rfl] at h; cases h
    | [a, b] => rw [show b64DecodeGroups [a, b] = none from rfl] at h; cases h
    | [a, b, c] => rw [show b64DecodeGroups [a, b, c] = none from rfl] at h; cases h
    | a :: b :: c :: d :: rest =>
      cases hva : b64Val a with
      | none => rw [b64DecodeGroups] at h; rw [hva] at h; simp at h
      | some va =>
      cases hvb : b64Val b with
      | none => rw [b64DecodeGroups] at h; rw [hva, hvb] at h; simp at h
      | some vb =>
      have hna : ',' ≠ a := fun hh => by rw [← hh, comma_b64Val] at hva; cases hva
      have hnb : ',' ≠ b := fun hh => by rw [← hh, comma_b64Val] at hvb; cases hvb
      simp only [List.mem_cons, not_or]
      by_cases hc : c = '='
      · by_cases hr : rest = []
        · subst hr hc
          refine ⟨hna, hnb, by decide, ?_, by simp⟩
          by_cases hd : d = '='
          · subst hd; decide
          · rw [b64DecodeGroups] at h
            rw [hva, hvb] at h
            simp [hd] at h
        · rw [b64DecodeGroups] at h
          rw [hva, hvb] at h
          simp [hc, hr] at h
      · cases hvc : b64Val c with
        | none =>
          rw [b64DecodeGroups] at h
          rw [hva, hvb, hvc] at h
          simp [hc] at h
        | some vc =>
        have hnc : ',' ≠ c := fun hh => by rw [← hh, comma_b64Val] at hvc; cases hvc
        by_cases hd : d = '='
        · by_cases hr : rest = []
          · subst hr hd
            exact ⟨hna, hnb, hnc, by decide, by simp⟩
          · rw [b64DecodeGroups] at h
            rw [hva, hvb, hvc] at h
            simp [hc, hd, hr] at h
        · cases hvd : b64Val d with
          | none =>
            rw [b64DecodeGroups] at h
            rw [hva, hvb, hvc, hvd] at h
            simp [hc, hd] at h
          | some vd =>
          have hnd : ',' ≠ d := fun hh => by rw [← hh, comma_b64Val] at hvd; cases hvd
          cases hrec : b64DecodeGroups rest with
          | none =>
            rw [b64DecodeGroups] at h
            rw [hva, hvb, hvc, hvd, hrec] at h
            simp [hc, hd] at h
          | some bs1 =>
            have hlen : rest.length ≤ n := by
              simp only [List.length_cons] at hl; omega
            exact ⟨hna, hnb, hnc, hnd, ih rest hlen bs1 hrec⟩

end MusUc
namespace MusUc

lemma b64_no_comma (l : List Char) (bs : List Nat)
    (h : b64DecodeGroups l = some bs) : ',' ∉ l :=
  b64_no_comma_aux l.length l (Nat.le_refl _) bs h


lemma splitAtFirst_none_mem (sep : Char) :
    ∀ l : List Char, splitAtFirst sep l = none → sep ∉ l := by
  intro l
  induction l with
  | nil => intro _; simp
  | cons c cs ih =>
    intro h
    by_cases hc : c = sep
    · simp [splitAtFirst, hc] at h
    · cases hsp : splitAtFirst sep cs with
      | none =>
        rw [List.mem_cons, not_or]
        exact ⟨fun hh => hc hh.symm, ih hsp⟩
      | some pr =>
        obtain ⟨p, r⟩ := pr
        simp [splitAtFirst, hc, hsp] at h

lemma save_eq_spec (url : List Char) (bs : List Nat) :
    save_data_url_to_file url = Except.ok bs ↔
      save_data_url_spec url = Except.ok bs := by
  cases hsf : splitAtFirst ',' url with
  | none =>
    have hmem : ',' ∉ url := splitAtFirst_none_mem ',' url hsf
    have hcode : save_data_url_to_file url =
        Except.error "Invalid data URL format" := by
      unfold save_data_url_to_file
      rw [splitOnComma_no_comma url hmem]
      rw [if_neg (by simp)]
    have hspec : save_data_url_spec url =
        Except.error "Invalid data URL format" := by
      unfold save_data_url_spec
      rw [hsf]
    rw [hcode, hspec]
  | some pr =>
    obtain ⟨p, q⟩ := pr
    obtain ⟨hurl, hnp⟩ := splitAtFirst_some ',' url p q hsf
    have hspec : save_data_url_spec url =
        (match b64DecodeGroups q with
         | some bytes => Except.ok bytes
         | none => Except.error "Failed to decode base64 data") := by
      unfold save_data_url_spec
      rw [hsf]
    by_cases hq : ',' ∈ q
    · have hdec : b64DecodeGroups q = none := by
        cases hd : b64DecodeGroups q with
        | none => rfl
        | some bytes => exact absurd hq (b64_no_comma q bytes hd)
      have hcode : save_data_url_to_file url =
          Except.error "Invalid data URL format" := by
        unfold save_data_url_to_file
        rw [hurl, splitOnComma_append p q hnp]
        cases hq2 : splitOnComma q with
        | nil => exact absurd hq2 (splitOnComma_ne_nil q)
        | cons x xs =>
          cases xs with
          | nil => exact absurd hq (absurd (splitOnComma_singleton q x hq2).1 (fun hh => hh hq) )
          | cons y ys =>
            rw [if_neg (by simp [List.length_cons])]
      rw [hcode, hspec, hdec]
      constructor <;> intro hh <;> cases hh
    · have hcode : save_data_url_to_file url =
          (match b64DecodeGroups q with
           | some bytes => Except.ok bytes
           | none => Except.error "Failed to decode base64 data") := by
        unfold save_data_url_to_file
        rw [hurl, splitOnComma_append p q hnp, splitOnComma_no_comma q hq]
        rw [if_pos (by simp)]
        rfl
      rw [hcode, hspec]

/-! ## Claim theorems -/

/-- Claim C1, counterexample: the frame "10:ab" declares length 10 but its
body after the colon has only 2 bytes; the claim demands a Malformed
transport error, yet the code accepts it and returns the 2-byte payload.
Likewise the non-decimal prefix "xyz" is accepted. -/
theorem recv_accepts_short_frame :
    parse_response_line ("10:ab".data) = Except.ok ("ab".data) ∧
    parse_response_line ("xyz:ab".data) = Except.ok ("ab".data) := ⟨rfl, rfl⟩

/-- Claim C1 (amended): `send_command` response parsing takes everything
after the first colon as the payload, without validating the declared length
(short bodies, non-decimal prefixes and prefix-vs-body mismatches are all
accepted); only a missing colon yields the "Invalid response format" error. -/
theorem recv_ignores_length_declaration :
    (∀ pre rest : List Char, ':' ∉ pre →
      parse_response_line (pre ++ ':' :: rest) = Except.ok rest) ∧
    (∀ line : List Char, ':' ∉ line →
      parse_response_line line = Except.error "Invalid response format") := by
  constructor
  · intro pre rest hp
    unfold parse_response_line
    rw [splitAtFirst_append ':' pre rest hp]
  · intro line hl
    unfold parse_response_line
    rw [splitAtFirst_eq_none ':' line hl]

/-- Claim C1, witness for the amended theorem at concrete frames. -/
theorem recv_ignores_length_declaration_witness :
    parse_response_line (['2'] ++ ':' :: ['o', 'k']) = Except.ok ['o', 'k'] ∧
    parse_response_line ['n', 'o'] =
      Except.error "Invalid response format" :=
  ⟨recv_ignores_length_declaration.1 ['2'] ['o', 'k'] (by decide),
   recv_ignores_length_declaration.2 ['n', 'o'] (by decide)⟩

/-- Claim C2, counterexample: with "my-id" already bound to "old" in the
registry, `load_css` with the same caller-provided identifier succeeds and
silently replaces the prior entry with "new" — no local collision check, no
explicit unload required. -/
theorem load_css_overwrite_counterexample :
    lookupSheet [("my-id", "old")] "my-id" = some "old" ∧
    (load_css [("my-id", "old")] "new" (some "my-id")
      (Except.ok (JValue.str "my-id"))).1 = Except.ok "my-id" ∧
    (load_css [("my-id", "old")] "new" (some "my-id")
      (Except.ok (JValue.str "my-id"))).2 = [("my-id", "new")] :=
  ⟨rfl, rfl, rfl⟩

/-- Claim C2 (amended): `load_css` performs no local collision check: a
successful load whose returned identifier already exists in the registry
succeeds and silently replaces the prior entry (the binding of the returned
identifier afterwards is the new source text). -/
theorem load_css_no_collision_check (reg : Registry) (css : String)
    (idOpt : Option String) (s old : String)
    (_hcol : lookupSheet reg s = some old) :
    (load_css reg css idOpt (Except.ok (JValue.str s))).1 = Except.ok s ∧
    lookupSheet (load_css reg css idOpt (Except.ok (JValue.str s))).2 s =
      some css := by
  constructor
  · rfl
  · simp [load_css, JValue.as_str, insertSheet, lookupSheet]

/-- Claim C2, witness for the amended theorem at a concrete registry. -/
theorem load_css_no_collision_check_witness :
    (load_css [("i", "old")] "new" (some "i")
      (Except.ok (JValue.str "i"))).1 = Except.ok "i" ∧
    lookupSheet (load_css [("i", "old")] "new" (some "i")
      (Except.ok (JValue.str "i"))).2 "i" = some "new" :=
  load_css_no_collision_check [("i", "old")] "new" (some "i") "i" "old" rfl

/-- Claim C3, counterexample: the id counter is a u32 and wraps: the call
numbered 2^32 gets id 0, not 2^32, and the call numbered 2^32 + 1 repeats the
id of call 1. -/
theorem send_command_id_wraps :
    idOfCall 4294967296 = 0 ∧
    idOfCall (4294967296 + 1) = 1 ∧ idOfCall 1 = 1 := by
  refine ⟨?_, ?_, ?_⟩
  · rw [idOfCall_eq_mod 4294967296 (by norm_num)]
    exact Nat.mod_self u32size
  · rw [idOfCall_eq_mod (4294967296 + 1) (by norm_num)]
    rw [show (4294967296 + 1) % u32size = 1 % u32size from
      Nat.add_mod_left u32size 1]
    exact Nat.mod_eq_of_lt (by norm_num [u32size])
  · rw [idOfCall_eq_mod 1 (by norm_num)]
    exact Nat.mod_eq_of_lt (by norm_num [u32size])

/-- Claim C3 (amended): within one session the message id attached to the
k-th `send_command` is exactly k (1-based) for every k below 2^32; beyond
that the u32 counter wraps modulo 2^32 and ids repeat. -/
theorem send_command_id_monotone (k : Nat) (h1 : 1 ≤ k)
    (h2 : k < u32size) : idOfCall k = k := by
  rw [idOfCall_eq_mod k h1]
  exact Nat.mod_eq_of_lt h2

/-- Claim C3, witness for the amended theorem at a concrete call number. -/
theorem send_command_id_monotone_witness : idOfCall 3 = 3 :=
  send_command_id_monotone 3 (by norm_num) (by norm_num [u32size])

/-- Claim C4 (confirmed): `connect` constructs a session exactly when the
handshake declares applicationType "gecko" and marionetteProtocol 3; in
particular protocol 2 and applicationType "other" are both rejected. -/
theorem connect_handshake_strict :
    (∀ h : MarionetteHandshake,
      (∃ c, MarionetteClient.connect h = Except.ok c) ↔
        h.application_type = "gecko" ∧ h.protocol = 3) ∧
    MarionetteClient.connect { protocol := 2, application_type := "gecko" } =
      Except.error "Unsupported protocol version" ∧
    MarionetteClient.connect { protocol := 3, application_type := "other" } =
      Except.error "Unexpected application type: other" := by
  refine ⟨?_, rfl, rfl⟩
  intro h
  constructor
  · rintro ⟨c, hok⟩
    by_cases ha : h.application_type = "gecko"
    · by_cases hp : h.protocol = 3
      · exact ⟨ha, hp⟩
      · simp [MarionetteClient.connect, ha, hp] at hok
    · simp [MarionetteClient.connect, ha] at hok
  · rintro ⟨ha, hp⟩
    exact ⟨{ message_id := 0 }, by simp [MarionetteClient.connect, ha, hp]⟩

/-- Claim C5 (confirmed): when the remote call fails, `load_css`,
`unload_css` and `clear_all` all return the error and leave the client
registry exactly as it was (the mutation happens only after the early
return of the failed remote call). -/
theorem css_ops_atomic_on_failure (reg : Registry) (css : String)
    (idOpt : Option String) (sid : String) (e : String) :
    load_css reg css idOpt (Except.error e) = (Except.error e, reg) ∧
    unload_css reg sid (Except.error e) = (Except.error e, reg) ∧
    clear_all reg (Except.error e) = (Except.error e, reg) :=
  ⟨rfl, rfl, rfl⟩

/-- Claim C6 (confirmed): `unload_css` mirrors the remote exactly: a remote
`true` removes the entry for the id (and only that entry) and returns
`Ok(true)`; a remote `false` returns `Ok(false)` with the registry
unchanged. -/
theorem unload_css_mirrors_remote (reg : Registry) (sid : String) :
    unload_css reg sid (Except.ok (JValue.bool true)) =
      (Except.ok true, removeSheet reg sid) ∧
    lookupSheet (removeSheet reg sid) sid = none ∧
    (∀ k, k ≠ sid →
      lookupSheet (removeSheet reg sid) k = lookupSheet reg k) ∧
    unload_css reg sid (Except.ok (JValue.bool false)) =
      (Except.ok false, reg) :=
  ⟨rfl, lookup_remove_self sid reg,
   fun k hk => lookup_remove_ne sid k hk reg, rfl⟩

/-- Claim C6, witness at a concrete registry (discharging the `k ≠ sid`
hypothesis of the only-that-entry conjunct). -/
theorem unload_css_mirrors_remote_witness :
    lookupSheet (removeSheet [("a", "x"), ("b", "y")] "a") "b" =
      lookupSheet [("a", "x"), ("b", "y")] "b" :=
  (unload_css_mirrors_remote [("a", "x"), ("b", "y")] "a").2.2.1 "b"
    (by decide)

/-- Claim C9, counterexample: the derived `Default` value of
`MarionetteSettings` (the one `ChromeCSSManager::new` of the
chrome-css-manager.rs variant constructs) has host "" and port 0, not
"localhost" and 2828. -/
theorem settings_default_not_localhost :
    MarionetteSettings.derivedDefault.host ≠ "localhost" ∧
    MarionetteSettings.derivedDefault.port ≠ 2828 := by
  constructor
  · decide
  · decide

/-- Claim C9 (amended): `MarionetteSettings::new` yields host "localhost"
and port 2828, but the derived `Default` implementation (used by the
chrome-css-manager.rs variant) is field-wise and yields host "" and
port 0. -/
theorem settings_constructors :
    MarionetteSettings.new = { host := "localhost", port := 2828 } ∧
    MarionetteSettings.derivedDefault = { host := "", port := 0 } :=
  ⟨rfl, rfl⟩

/-- Claim C10 (confirmed): a successful remote call returning a non-string
JSON value makes `load_css` return Ok "unknown" and insert the entry
("unknown", source); successive such loads all collide on the single
identifier "unknown" (the second source overwrites the first). -/
theorem load_css_nonstring_unknown :
    (∀ (reg : Registry) (css : String) (idOpt : Option String) (v : JValue),
      JValue.as_str v = none →
      load_css reg css idOpt (Except.ok v) =
        (Except.ok "unknown", insertSheet reg "unknown" css)) ∧
    (∀ (reg : Registry) (css1 css2 : String) (v w : JValue),
      JValue.as_str v = none → JValue.as_str w = none →
      lookupSheet (load_css (load_css reg css1 none (Except.ok v)).2 css2
        none (Except.ok w)).2 "unknown" = some css2) := by
  constructor
  · intro reg css idOpt v hv
    simp [load_css, hv, insertSheet]
  · intro reg css1 css2 v w hv hw
    simp [load_css, hv, hw, insertSheet, lookupSheet]

/-- Claim C7, counterexample: the CSS source consisting of a backslash
followed by a backtick defeats the backtick-only escaping of `load_css`:
after escaping, the text still terminates the template literal (the inserted
escape is itself escaped by the user's backslash), so backslashes are not
neutralised. -/
theorem escape_misses_backslash :
    tmplBreak false (escapeBackticks ['\\', backtickChar]) = true := by
  decide

/-- Claim C7 (amended): `load_css` escapes only backticks, which neutralises
the template literal's terminator only for sources containing neither a
backslash nor a dollar sign; the selector escaping of `capture_element`
(backslashes doubled, then double quotes escaped) does neutralise every
character that would terminate its double-quoted literal. -/
theorem escaping_neutralises :
    (∀ l : List Char, '\\' ∉ l → '$' ∉ l →
      tmplBreak false (escapeBackticks l) = false) ∧
    (∀ l : List Char, dquoteBreak false (escapeSelector l) = false) :=
  ⟨tmpl_safe, dquote_safe⟩

/-- Claim C7, witness for the amended theorem at concrete inputs. -/
theorem escaping_neutralises_witness :
    tmplBreak false (escapeBackticks ['a', backtickChar, 'b']) = false ∧
    dquoteBreak false (escapeSelector ['#', '"', 'x']) = false :=
  ⟨escaping_neutralises.1 ['a', backtickChar, 'b'] (by decide) (by decide),
   escaping_neutralises.2 ['#', '"', 'x']⟩

/-- Claim C8 (confirmed): `save_data_url_to_file` writes the base64-decoded
tail of the data URL: on the literal input of Scenario F it writes exactly
the eight PNG signature bytes; a data URL lacking a comma is rejected with an
error; and the implementation (split on every comma, require exactly two
parts) accepts an input with bytes exactly when the specified behaviour
(split at the first comma, decode the tail) does, with the same bytes. -/
theorem save_data_url_correct :
    save_data_url_to_file ("data:image/png;base64,iVBORw0KGgo=".data) =
      Except.ok [137, 80, 78, 71, 13, 10, 26, 10] ∧
    (∀ url : List Char, ',' ∉ url →
      save_data_url_to_file url =
        Except.error "Invalid data URL format") ∧
    (∀ (url : List Char) (bs : List Nat),
      save_data_url_to_file url = Except.ok bs ↔
        save_data_url_spec url = Except.ok bs) := by
  refine ⟨rfl, ?_, save_eq_spec⟩
  intro url hmem
  unfold save_data_url_to_file
  rw [splitOnComma_no_comma url hmem]
  rw [if_neg (by simp)]

/-- Claim C8, witness at concrete data URLs (discharging the comma-free
hypothesis). -/
theorem save_data_url_correct_witness :
    save_data_url_to_file ("nope".data) =
      Except.error "Invalid data URL format" ∧
    save_data_url_to_file ("data:image/png;base64,iVBORw0KGgo=".data) =
      Except.ok [137, 80, 78, 71, 13, 10, 26, 10] :=
  ⟨save_data_url_correct.2.1 ("nope".data) (by decide),
   save_data_url_correct.1⟩

/-- Claim C10, witness at concrete non-string remote results. -/
theorem load_css_nonstring_unknown_witness :
    load_css [] "body" none (Except.ok JValue.null) =
      (Except.ok "unknown", insertSheet [] "unknown" "body") ∧
    lookupSheet (load_css (load_css [] "a" none
      (Except.ok JValue.null)).2 "b" none
      (Except.ok (JValue.bool true))).2 "unknown" = some "b" :=
  ⟨load_css_nonstring_unknown.1 [] "body" none JValue.null rfl,
   load_css_nonstring_unknown.2 [] "a" "b" JValue.null (JValue.bool true)
     rfl rfl⟩

end MusUc
